import Mathlib

/-!
Shallow embedding of the `environment-sanity` wrapper (src/lib.rs, src/main.rs).

Environment-variable names and values (Rust `OsString` on Unix) are modelled as
raw byte sequences (`List Nat`); `HashSet` is modelled as a duplicate-free list
built with `hsInsert`, `HashMap` as an association list whose `insert` replaces
the value of an existing key in place.  `fatalExit!` (which prints and calls
`exit(1)`) is modelled as the `Except Fatal` error monad; each `warn!` emission
is collected into a `List Warning`.
-/

deriving instance DecidableEq for Except

set_option maxRecDepth 100000

namespace EnvironmentSanity

/-- Raw bytes of an `OsString` on Unix. -/
abbrev Bytes := List Nat

/-- `const AsciiNul: u8 = 0x00` in src/lib.rs. -/
def AsciiNul : Nat := 0x00

/-- `const LineFeed: u8 = 0x0A` in `addFromLinesListedInFile`. -/
def LineFeed : Nat := 0x0A

/-- `const Tab: u8 = b'\t'` in `SettingsList::addToFromFile`. -/
def TabByte : Nat := 0x09

/-- Bytes of an ASCII string literal (Rust `&str` / `OsString::from`); all
literals appearing in the program are ASCII, so code points equal bytes. -/
def strBytes (s : String) : Bytes :=
  s.data.map Char.toNat

/-- `memchr::memchr(needle, haystack)`: index of the first occurrence of a byte. -/
def memchr (needle : Nat) : Bytes → Option Nat
  | [] => none
  | b :: rest => if b = needle then some 0 else (memchr needle rest).map (· + 1)

/-- `fn osStringFromRawBytesWithoutADelimiter`: pushes an ASCII NUL onto the raw
bytes and wraps them as an `OsString`. -/
def osStringFromRawBytesWithoutADelimiter (environmentVariableRawBytes : Bytes) : Bytes :=
  environmentVariableRawBytes ++ [AsciiNul]

/-- `pub struct EnvironmentVariable(OsString)` with `#[derive(PartialEq, Eq, Hash)]`:
byte-exact equality and hashing. -/
structure EnvironmentVariable where
  bytes : Bytes
deriving DecidableEq

/-- `EnvironmentVariable::fromRawBytesWithoutADelimiter`. -/
def EnvironmentVariable.fromRawBytesWithoutADelimiter (environmentVariableRawBytes : Bytes) :
    EnvironmentVariable :=
  ⟨osStringFromRawBytesWithoutADelimiter environmentVariableRawBytes⟩

/-- `impl From<&str> for EnvironmentVariable`: `EnvironmentVariable(OsString::from(string))`,
bytes stored as-is (no NUL appended). -/
def EnvironmentVariable.fromStr (string : String) : EnvironmentVariable :=
  ⟨strBytes string⟩

/-- `EnvironmentVariable::to_os_string`. -/
def EnvironmentVariable.to_os_string (v : EnvironmentVariable) : Bytes :=
  v.bytes

/-- `HashSet::insert`: a set keeps one copy of each element. -/
def hsInsert (n : EnvironmentVariable) (s : List EnvironmentVariable) :
    List EnvironmentVariable :=
  if n ∈ s then s else s ++ [n]

/-- `HashMap` lookup on an association list. -/
def lookupA {α β : Type} [DecidableEq α] (k : α) : List (α × β) → Option β
  | [] => none
  | (k', v) :: rest => if k' = k then some v else lookupA k rest

/-- `HashMap::insert`: replaces the value of an existing key, else adds the pair. -/
def insertReplace {α β : Type} [DecidableEq α] (k : α) (v : β) :
    List (α × β) → List (α × β)
  | [] => [(k, v)]
  | (k', v') :: rest =>
    if k' = k then (k, v) :: rest else (k', v') :: insertReplace k v rest

/-- The `fatalExit!` outcomes reachable in the embedded fragment. -/
inductive Fatal where
  /-- `WhiteList::new`: a default occurs in both the black and the white list. -/
  | whiteListDefaultCollision (environmentVariableName : EnvironmentVariable)
  /-- `addFromLinesListedInFile`: a record contains an ASCII NUL at `column`. -/
  | containsAsciiNul (fileKind : String) (filePath : String) (line : Nat) (column : Nat)
  /-- `SettingsList::addToFromFile`: no tab delimiter in the record. -/
  | noTabDelimiter (fileKind : String) (filePath : String) (line : Nat)
deriving DecidableEq

/-- One `warn!` emission from `WhiteList::addToFromFile`: the offending name,
the file path and the zero-based record index. -/
structure Warning where
  environmentVariableName : EnvironmentVariable
  filePath : String
  line : Nat
deriving DecidableEq

/-- Splits bytes at every linefeed, keeping a (possibly empty) final segment. -/
def splitOnLineFeedAux : Bytes → List Bytes
  | [] => [[]]
  | b :: rest =>
    let parts := splitOnLineFeedAux rest
    if b = LineFeed then [] :: parts
    else (b :: parts.headI) :: parts.tail

/-- `BufRead::split(LineFeed)`: segments between linefeeds, the delimiter
excluded; no trailing empty segment is yielded when the content is empty or
ends with the delimiter. -/
def splitOnLineFeed (content : Bytes) : List Bytes :=
  let parts := splitOnLineFeedAux content
  if parts.getLast? = some [] then parts.dropLast else parts

/-- Loop body of `addFromLinesListedInFile`: for each record (with its
zero-based index) first scan for an embedded ASCII NUL (fatal), then run the
caller's `add` closure; warnings from `add` are accumulated in order. -/
def processLines {σ : Type} (fileKind : String) (filePath : String)
    (add : σ → Bytes → Nat → Except Fatal (σ × List Warning)) :
    List Bytes → Nat → σ → List Warning → Except Fatal (σ × List Warning)
  | [], _, s, ws => .ok (s, ws)
  | record :: rest, line, s, ws =>
    match memchr AsciiNul record with
    | some column => .error (.containsAsciiNul fileKind filePath line column)
    | none =>
      match add s record line with
      | .error e => .error e
      | .ok (s', ws') => processLines fileKind filePath add rest (line + 1) s' (ws ++ ws')

/-- `fn addFromLinesListedInFile`: reads the file content, splits it on
linefeeds and feeds each record to `add` (file-open and read errors do not
arise in the model, where the content is given). -/
def addFromLinesListedInFile {σ : Type} (fileKind : String) (filePath : String)
    (add : σ → Bytes → Nat → Except Fatal (σ × List Warning))
    (content : Bytes) (init : σ) : Except Fatal (σ × List Warning) :=
  processLines fileKind filePath add (splitOnLineFeed content) 0 init []

/-- `pub struct BlackList(HashSet<EnvironmentVariable>)`. -/
structure BlackList where
  set : List EnvironmentVariable
deriving DecidableEq

/-- `BlackList::new`: inserts every default into the set. -/
def BlackList.new (defaultBlackList : List EnvironmentVariable) : BlackList :=
  ⟨defaultBlackList.foldl (fun s n => hsInsert n s) []⟩

/-- `BlackList::isBlackListed`. -/
def BlackList.isBlackListed (b : BlackList) (environmentVariableName : EnvironmentVariable) :
    Bool :=
  decide (environmentVariableName ∈ b.set)

/-- `BlackList::isNotBlackListed`. -/
def BlackList.isNotBlackListed (b : BlackList) (environmentVariableName : EnvironmentVariable) :
    Bool :=
  !(b.isBlackListed environmentVariableName)

/-- Closure passed by `BlackList::addToFromFile` (through
`addEnvironmentVariablesFromLinesListedInFile`, which builds the name with
`EnvironmentVariable::fromRawBytesWithoutADelimiter`): insert unconditionally. -/
def blackAdd (b : BlackList) (record : Bytes) (_line : Nat) :
    Except Fatal (BlackList × List Warning) :=
  .ok (⟨hsInsert (EnvironmentVariable.fromRawBytesWithoutADelimiter record) b.set⟩, [])

/-- `BlackList::addToFromFile`. -/
def BlackList.addToFromFile (b : BlackList) (filePath : String) (content : Bytes) :
    Except Fatal (BlackList × List Warning) :=
  addFromLinesListedInFile "Black" filePath blackAdd content b

/-- `pub struct WhiteList<'a>(HashSet<EnvironmentVariable>, &'a BlackList)`. -/
structure WhiteList where
  set : List EnvironmentVariable
  blackList : BlackList
deriving DecidableEq

/-- Loop of `WhiteList::new`: for each default, abort fatally if it is
black-listed, else insert it. -/
def WhiteList.newAux (blackList : BlackList) :
    List EnvironmentVariable → List EnvironmentVariable → Except Fatal WhiteList
  | [], acc => .ok ⟨acc, blackList⟩
  | environmentVariableName :: rest, acc =>
    if blackList.isBlackListed environmentVariableName then
      .error (.whiteListDefaultCollision environmentVariableName)
    else
      WhiteList.newAux blackList rest (hsInsert environmentVariableName acc)

/-- `WhiteList::new`. -/
def WhiteList.new (blackList : BlackList) (defaultWhiteList : List EnvironmentVariable) :
    Except Fatal WhiteList :=
  WhiteList.newAux blackList defaultWhiteList []

/-- `WhiteList::isWhiteListed`. -/
def WhiteList.isWhiteListed (w : WhiteList) (environmentVariableName : EnvironmentVariable) :
    Bool :=
  decide (environmentVariableName ∈ w.set)

/-- Closure passed by `WhiteList::addToFromFile`: if the (NUL-suffixed) name is
black-listed, `warn!` and skip; otherwise insert. -/
def whiteAdd (filePath : String) (w : WhiteList) (record : Bytes) (line : Nat) :
    Except Fatal (WhiteList × List Warning) :=
  let environmentVariableName := EnvironmentVariable.fromRawBytesWithoutADelimiter record
  if w.blackList.isBlackListed environmentVariableName then
    .ok (w, [⟨environmentVariableName, filePath, line⟩])
  else
    .ok ({ w with set := hsInsert environmentVariableName w.set }, [])

/-- `WhiteList::addToFromFile`. -/
def WhiteList.addToFromFile (w : WhiteList) (filePath : String) (content : Bytes) :
    Except Fatal (WhiteList × List Warning) :=
  addFromLinesListedInFile "White" filePath (whiteAdd filePath) content w

/-- `WhiteList::filterEnvironment`: keeps the live-environment entries whose
name is not black-listed and is white-listed (`vars_os()` is the parameter). -/
def WhiteList.filterEnvironment (w : WhiteList) (vars : List (Bytes × Bytes)) :
    List (Bytes × Bytes) :=
  (vars.filter (fun p => w.blackList.isNotBlackListed ⟨p.1⟩)).filter
    (fun p => w.isWhiteListed ⟨p.1⟩)

/-- `pub struct SettingsList(HashMap<EnvironmentVariable, OsString>)`. -/
structure SettingsList where
  map : List (EnvironmentVariable × Bytes)
deriving DecidableEq

/-- `SettingsList::new`. -/
def SettingsList.new (defaultSettingsList : List (EnvironmentVariable × Bytes)) : SettingsList :=
  ⟨defaultSettingsList⟩

/-- `SettingsList::addSettingsToEnvironment`: insert-or-replace every settings
pair into the environment mapping; no black/white-list awareness. -/
def SettingsList.addSettingsToEnvironment (s : SettingsList)
    (environment : List (Bytes × Bytes)) : List (Bytes × Bytes) :=
  s.map.foldl (fun e p => insertReplace p.1.to_os_string p.2 e) environment

/-- Closure passed by `SettingsList::addToFromFile`: split the record at the
first tab (fatal if there is none); name = bytes before the tab, value = bytes
after it, both NUL-suffixed by the raw-bytes constructors. -/
def settingsAdd (filePath : String) (s : SettingsList) (record : Bytes) (line : Nat) :
    Except Fatal (SettingsList × List Warning) :=
  match memchr TabByte record with
  | none => .error (.noTabDelimiter "Settings" filePath line)
  | some index =>
    let name := EnvironmentVariable.fromRawBytesWithoutADelimiter (record.take index)
    let value := osStringFromRawBytesWithoutADelimiter (record.drop (index + 1))
    .ok (⟨insertReplace name value s.map⟩, [])

/-- `SettingsList::addToFromFile`. -/
def SettingsList.addToFromFile (s : SettingsList) (filePath : String) (content : Bytes) :
    Except Fatal (SettingsList × List Warning) :=
  addFromLinesListedInFile "Settings" filePath (settingsAdd filePath) content s

/-- `fn defaultBlackList` in src/main.rs (two entries carry a trailing space in
the source; they are reproduced byte-exactly). -/
def defaultBlackList : List EnvironmentVariable :=
  [ .fromStr "CDPATH",
    .fromStr "LD_LIBRARY_PATH",
    .fromStr "LD_PRELOAD",
    .fromStr "DYLD_LIBRARY_PATH",
    .fromStr "DYLD_FALLBACK_LIBRARY_PATH",
    .fromStr "DYLD_FRAMEWORK_PATH",
    .fromStr "DYLD_FALLBACK_FRAMEWORK_PATH",
    .fromStr "LD_BIND_NOW ",
    .fromStr "LD_TRACE_LOADED_OBJECTS",
    .fromStr "LD_AOUT_LIBRARY_PATH",
    .fromStr "LD_AOUT_PRELOAD",
    .fromStr "LD_AUDIT",
    .fromStr "LD_BIND_NOT",
    .fromStr "LD_DEBUG",
    .fromStr "LD_DEBUG_OUTPUT",
    .fromStr "LD_DYNAMIC_WEAK",
    .fromStr "LD_HWCAP_MASK",
    .fromStr "LD_KEEPDIR",
    .fromStr "LD_NOWARN",
    .fromStr "LD_ORIGIN_PATH",
    .fromStr "LD_POINTER_GUARD",
    .fromStr "LD_PROFILE",
    .fromStr "LD_PROFILE_OUTPUT",
    .fromStr "LD_SHOW_AUXV",
    .fromStr "LD_USE_LOAD_BIAS",
    .fromStr "LD_VERBOSE",
    .fromStr "LD_WARN",
    .fromStr "LDD_ARGV0 ",
    .fromStr "LOGNAME",
    .fromStr "USER",
    .fromStr "SUDO_USER",
    .fromStr "SUDO_UID",
    .fromStr "SUDO_COMMAND",
    .fromStr "SUDO_GID",
    .fromStr "HOME" ]

/-- `fn defaultWhiteList` in src/main.rs. -/
def defaultWhiteList : List EnvironmentVariable :=
  [ .fromStr "PATH",
    .fromStr "TMPDIR" ]

/-- `PathBuf::join` on Unix: concatenation with a `/` byte. -/
def pathJoin (a b : Bytes) : Bytes :=
  a ++ [0x2F] ++ b

/-- `std::env::remove_var`: the entry with this exact name is removed. -/
def removeVar (name : Bytes) (env : List (Bytes × Bytes)) : List (Bytes × Bytes) :=
  env.filter (fun p => decide (p.1 ≠ name))

/-- Effect of `fn homeFolderIgnoringValueOfHomeVariable` on the process
environment: it calls `remove_var("HOME")` before `home_dir()`, so every later
`vars_os`/`var_os` call observes the environment without `HOME`. -/
def environmentAfterHomeRemoval (inheritedEnvironment : List (Bytes × Bytes)) :
    List (Bytes × Bytes) :=
  removeVar (strBytes "HOME") inheritedEnvironment

/-- `fn defaultSettings` in src/main.rs: computed per-program default settings.
`isLinuxTarget` stands for `cfg!(target_os = "linux")`, `homeFolder` for the
resolved home directory, and `liveEnvironment` for the process environment at
the time of the `var_os` call (after the `HOME` removal). -/
def defaultSettings (isLinuxTarget : Bool) (homeFolder programName : Bytes)
    (liveEnvironment : List (Bytes × Bytes)) : List (EnvironmentVariable × Bytes) :=
  let settings : List (EnvironmentVariable × Bytes) := []
  let settings := insertReplace (EnvironmentVariable.fromStr "TZ") (strBytes "Etc/UTC") settings
  let settings := insertReplace (EnvironmentVariable.fromStr "HOME") homeFolder settings
  let settings := insertReplace (EnvironmentVariable.fromStr "TMPDIR")
    (pathJoin (pathJoin homeFolder (strBytes ".environment-sanity/tmp")) programName) settings
  let settings := insertReplace (EnvironmentVariable.fromStr "HOMEBREW_NO_ANALYTICS")
    (strBytes "1") settings
  match isLinuxTarget with
  | true =>
    let settings := insertReplace (EnvironmentVariable.fromStr "LC_ALL") (strBytes "C.UTF-8") settings
    let settings := insertReplace (EnvironmentVariable.fromStr "LC_COLLATE") (strBytes "C.UTF-8") settings
    let settings := insertReplace (EnvironmentVariable.fromStr "LC_CTYPE") (strBytes "C.UTF-8") settings
    let settings := insertReplace (EnvironmentVariable.fromStr "LC_MESSAGES") (strBytes "C.UTF-8") settings
    let settings := insertReplace (EnvironmentVariable.fromStr "LC_MONETARY") (strBytes "C.UTF-8") settings
    let settings := insertReplace (EnvironmentVariable.fromStr "LC_NUMERIC") (strBytes "C.UTF-8") settings
    let settings := insertReplace (EnvironmentVariable.fromStr "LC_TIME") (strBytes "C.UTF-8") settings
    let settings := insertReplace (EnvironmentVariable.fromStr "LANG") (strBytes "C.UTF-8") settings
    match lookupA (strBytes "LOGNAME") liveEnvironment with
    | some logname => insertReplace (EnvironmentVariable.fromStr "USER") logname settings
    | none => settings
  | false =>
    let settings := insertReplace (EnvironmentVariable.fromStr "LC_ALL") (strBytes "UTF-8") settings
    let settings := insertReplace (EnvironmentVariable.fromStr "LC_COLLATE") (strBytes "UTF-8") settings
    let settings := insertReplace (EnvironmentVariable.fromStr "LC_CTYPE") (strBytes "UTF-8") settings
    let settings := insertReplace (EnvironmentVariable.fromStr "LC_MESSAGES") (strBytes "UTF-8") settings
    let settings := insertReplace (EnvironmentVariable.fromStr "LC_MONETARY") (strBytes "UTF-8") settings
    let settings := insertReplace (EnvironmentVariable.fromStr "LC_NUMERIC") (strBytes "UTF-8") settings
    let settings := insertReplace (EnvironmentVariable.fromStr "LC_TIME") (strBytes "UTF-8") settings
    let settings := insertReplace (EnvironmentVariable.fromStr "LANG") (strBytes "UTF-8") settings
    match lookupA (strBytes "USER") liveEnvironment with
    | some user => insertReplace (EnvironmentVariable.fromStr "LOGNAME") user settings
    | none => settings

/-- Inputs of one run of `fn main`: the inherited process environment, the
resolved home folder, the target program name, and the optional per-program
`black`/`white`/`settings` configuration files (path and content); `none`
models an absent file (`settingsFor` returning `None`). -/
structure MainConfig where
  inheritedEnvironment : List (Bytes × Bytes)
  homeFolder : Bytes
  programName : Bytes
  blackFile : Option (String × Bytes)
  whiteFile : Option (String × Bytes)
  settingsFile : Option (String × Bytes)

/-- `fn main` in src/main.rs up to the final `execute` call: remove `HOME`,
build the black list (defaults, then optional file), the white list (defaults
validated against the black list, then optional file), the settings list
(computed defaults, then optional file), filter the live environment, overlay
the settings; returns the final environment and the emitted warnings. -/
def mainRun (isLinuxTarget : Bool)
    (defBlack defWhite : List EnvironmentVariable) (cfg : MainConfig) :
    Except Fatal (List (Bytes × Bytes) × List Warning) :=
  let live := environmentAfterHomeRemoval cfg.inheritedEnvironment
  let blackStage : Except Fatal (BlackList × List Warning) :=
    match cfg.blackFile with
    | none => .ok (BlackList.new defBlack, [])
    | some pc => (BlackList.new defBlack).addToFromFile pc.1 pc.2
  match blackStage with
  | .error e => .error e
  | .ok (blackList, ws1) =>
    match WhiteList.new blackList defWhite with
    | .error e => .error e
    | .ok whiteList0 =>
      let whiteStage : Except Fatal (WhiteList × List Warning) :=
        match cfg.whiteFile with
        | none => .ok (whiteList0, [])
        | some pc => whiteList0.addToFromFile pc.1 pc.2
      match whiteStage with
      | .error e => .error e
      | .ok (whiteList, ws2) =>
        let settingsList0 := SettingsList.new
          (defaultSettings isLinuxTarget cfg.homeFolder cfg.programName live)
        let settingsStage : Except Fatal (SettingsList × List Warning) :=
          match cfg.settingsFile with
          | none => .ok (settingsList0, [])
          | some pc => settingsList0.addToFromFile pc.1 pc.2
        match settingsStage with
        | .error e => .error e
        | .ok (settingsList, ws3) =>
          let filteredEnvironment := whiteList.filterEnvironment live
          .ok (settingsList.addSettingsToEnvironment filteredEnvironment, ws1 ++ ws2 ++ ws3)

/-! ### Shared lemmas about the container models -/

theorem mem_hsInsert (n m : EnvironmentVariable) (s : List EnvironmentVariable) :
    n ∈ hsInsert m s ↔ n = m ∨ n ∈ s := by
  unfold hsInsert
  by_cases h : m ∈ s
  · simp only [if_pos h]
    constructor
    · intro hn
      exact Or.inr hn
    · rintro (rfl | hn)
      · exact h
      · exact hn
  · simp only [if_neg h, List.mem_append, List.mem_singleton]
    exact Or.comm

theorem lookupA_insertReplace_self {α β : Type} [DecidableEq α] (k : α) (v : β)
    (m : List (α × β)) : lookupA k (insertReplace k v m) = some v := by
  induction m with
  | nil => simp [insertReplace, lookupA]
  | cons p rest ih =>
    obtain ⟨k', v'⟩ := p
    by_cases h : k' = k
    · subst h
      simp [insertReplace, lookupA]
    · simp [insertReplace, lookupA, h, ih]

theorem lookupA_insertReplace_ne {α β : Type} [DecidableEq α] (k k' : α) (v : β)
    (m : List (α × β)) (h : k' ≠ k) :
    lookupA k (insertReplace k' v m) = lookupA k m := by
  induction m with
  | nil => simp [insertReplace, lookupA, h]
  | cons p rest ih =>
    obtain ⟨k0, v0⟩ := p
    by_cases h0 : k0 = k'
    · subst h0
      simp [insertReplace, lookupA, h]
    · by_cases h1 : k0 = k
      · subst h1
        simp [insertReplace, lookupA, h0, h]
      · simp [insertReplace, lookupA, h0, h1, ih]

theorem mem_keys_insertReplace {α β : Type} [DecidableEq α] (a k : α) (v : β)
    (m : List (α × β)) :
    a ∈ (insertReplace k v m).map Prod.fst ↔ a = k ∨ a ∈ m.map Prod.fst := by
  induction m with
  | nil => simp [insertReplace]
  | cons p rest ih =>
    obtain ⟨k0, v0⟩ := p
    by_cases h0 : k0 = k
    · subst h0
      simp only [insertReplace, if_pos rfl, List.map_cons, List.mem_cons, ite_true]
      tauto
    · simp only [insertReplace, if_neg h0, List.map_cons, List.mem_cons, ih]
      tauto

theorem keys_nodup_insertReplace {α β : Type} [DecidableEq α] (k : α) (v : β)
    (m : List (α × β)) (h : (m.map Prod.fst).Nodup) :
    ((insertReplace k v m).map Prod.fst).Nodup := by
  induction m with
  | nil => simp [insertReplace]
  | cons p rest ih =>
    obtain ⟨k0, v0⟩ := p
    simp only [List.map_cons, List.nodup_cons] at h
    by_cases h0 : k0 = k
    · subst h0
      simp only [insertReplace, if_pos rfl, List.map_cons, List.nodup_cons, ite_true]
      exact h
    · simp only [insertReplace, if_neg h0, List.map_cons, List.nodup_cons,
        mem_keys_insertReplace]
      exact ⟨fun hc => hc.elim h0 h.1, ih h.2⟩

theorem lookupA_mem {α β : Type} [DecidableEq α] (k : α) (v : β) (m : List (α × β))
    (h : lookupA k m = some v) : (k, v) ∈ m := by
  induction m with
  | nil => simp [lookupA] at h
  | cons p rest ih =>
    obtain ⟨k0, v0⟩ := p
    by_cases h0 : k0 = k
    · subst h0
      simp only [lookupA, if_pos rfl, Option.some.injEq, ite_true] at h
      subst h
      exact List.mem_cons_self _ _
    · simp only [lookupA, if_neg h0] at h
      exact List.mem_cons_of_mem _ (ih h)

theorem EnvironmentVariable.to_os_string_inj (a b : EnvironmentVariable)
    (h : a.to_os_string = b.to_os_string) : a = b := by
  cases a
  cases b
  simpa [EnvironmentVariable.to_os_string] using h

theorem lookupA_settingsFold_of_ne (k : Bytes) (m : List (EnvironmentVariable × Bytes))
    (e : List (Bytes × Bytes)) (h : ∀ p ∈ m, p.1.to_os_string ≠ k) :
    lookupA k (m.foldl (fun e p => insertReplace p.1.to_os_string p.2 e) e) = lookupA k e := by
  induction m generalizing e with
  | nil => rfl
  | cons p rest ih =>
    simp only [List.foldl_cons]
    rw [ih _ (fun q hq => h q (List.mem_cons_of_mem _ hq)),
      lookupA_insertReplace_ne _ _ _ _ (h p (List.mem_cons_self _ _))]

theorem lookupA_overlay (m : List (EnvironmentVariable × Bytes))
    (env : List (Bytes × Bytes)) (n : EnvironmentVariable) (v : Bytes)
    (hnd : (m.map Prod.fst).Nodup) (hmem : (n, v) ∈ m) :
    lookupA n.to_os_string
      (m.foldl (fun e p => insertReplace p.1.to_os_string p.2 e) env) = some v := by
  induction m generalizing env with
  | nil => cases hmem
  | cons p rest ih =>
    obtain ⟨k, w⟩ := p
    simp only [List.map_cons, List.nodup_cons] at hnd
    rcases List.mem_cons.mp hmem with heq | hmem'
    · obtain ⟨rfl, rfl⟩ := Prod.mk.injEq .. ▸ heq
      simp only [List.foldl_cons]
      rw [lookupA_settingsFold_of_ne]
      · exact lookupA_insertReplace_self _ _ _
      · intro q hq hqk
        exact hnd.1 (by
          have : q.1 = n := EnvironmentVariable.to_os_string_inj _ _ hqk
          exact this ▸ List.mem_map_of_mem Prod.fst hq)
    · exact ih _ hnd.2 hmem'

/-! ### Lemmas about the record-processing loops -/

theorem processLines_black_warnings (filePath : String) :
    ∀ (records : List Bytes) (line : Nat) (b : BlackList) (ws : List Warning)
      (res : BlackList × List Warning),
      processLines "Black" filePath blackAdd records line b ws = .ok res → res.2 = ws := by
  intro records
  induction records with
  | nil =>
    intro line b ws res h
    simp only [processLines, Except.ok.injEq] at h
    rw [← h]
  | cons r rest ih =>
    intro line b ws res h
    cases hnul : memchr AsciiNul r with
    | some column => simp [processLines, hnul] at h
    | none =>
      simp only [processLines, hnul, blackAdd, List.append_nil] at h
      exact ih _ _ _ _ h

theorem processLines_settings_warnings (filePath : String) :
    ∀ (records : List Bytes) (line : Nat) (s : SettingsList) (ws : List Warning)
      (res : SettingsList × List Warning),
      processLines "Settings" filePath (settingsAdd filePath) records line s ws = .ok res →
      res.2 = ws := by
  intro records
  induction records with
  | nil =>
    intro line s ws res h
    simp only [processLines, Except.ok.injEq] at h
    rw [← h]
  | cons r rest ih =>
    intro line s ws res h
    cases hnul : memchr AsciiNul r with
    | some column => simp [processLines, hnul] at h
    | none =>
      cases htab : memchr TabByte r with
      | none => simp [processLines, hnul, settingsAdd, htab] at h
      | some index =>
        simp only [processLines, hnul, settingsAdd, htab, List.append_nil] at h
        exact ih _ _ _ _ h

theorem processLines_white (filePath : String) :
    ∀ (records : List Bytes) (line : Nat) (w : WhiteList) (ws : List Warning),
      (∀ r ∈ records, memchr AsciiNul r = none) →
      ∃ w' ws',
        processLines "White" filePath (whiteAdd filePath) records line w ws = .ok (w', ws') ∧
        w'.blackList = w.blackList ∧
        (∀ n, n ∈ w.set → n ∈ w'.set) ∧
        (∀ n, n ∈ w'.set → n ∈ w.set ∨ ∃ r ∈ records,
            n = EnvironmentVariable.fromRawBytesWithoutADelimiter r ∧
            w.blackList.isBlackListed n = false) ∧
        (∀ wn, wn ∈ ws → wn ∈ ws') ∧
        (∀ (i : Nat) (r : Bytes), records[i]? = some r →
          w.blackList.isBlackListed (EnvironmentVariable.fromRawBytesWithoutADelimiter r) = true →
          (⟨EnvironmentVariable.fromRawBytesWithoutADelimiter r, filePath, line + i⟩ : Warning) ∈ ws') ∧
        (∀ (i : Nat) (r : Bytes), records[i]? = some r →
          w.blackList.isBlackListed (EnvironmentVariable.fromRawBytesWithoutADelimiter r) = false →
          EnvironmentVariable.fromRawBytesWithoutADelimiter r ∈ w'.set) := by
  intro records
  induction records with
  | nil =>
    intro line w ws _
    refine ⟨w, ws, by simp [processLines], rfl, fun n h => h, fun n h => Or.inl h,
      fun wn h => h, ?_, ?_⟩
    · intro i r h
      simp at h
    · intro i r h
      simp at h
  | cons r rest ih =>
    intro line w ws hnul
    have hnul0 : memchr AsciiNul r = none := hnul r (List.mem_cons_self _ _)
    have hnulrest : ∀ r' ∈ rest, memchr AsciiNul r' = none :=
      fun r' h => hnul r' (List.mem_cons_of_mem _ h)
    cases hb : w.blackList.isBlackListed (EnvironmentVariable.fromRawBytesWithoutADelimiter r) with
    | true =>
      obtain ⟨w', ws', hres, hbl, hmono, hchar, hwsmono, hwarn, hins⟩ :=
        ih (line + 1) w (ws ++ [⟨EnvironmentVariable.fromRawBytesWithoutADelimiter r, filePath, line⟩]) hnulrest
      refine ⟨w', ws', ?_, hbl, hmono, ?_, ?_, ?_, ?_⟩
      · simpa [processLines, hnul0, whiteAdd, hb] using hres
      · intro n hn
        rcases hchar n hn with h | ⟨r', hr', hn', hbl'⟩
        · exact Or.inl h
        · exact Or.inr ⟨r', List.mem_cons_of_mem _ hr', hn', hbl'⟩
      · intro wn hwn
        exact hwsmono wn (List.mem_append_left _ hwn)
      · intro i r0 hget hb0
        cases i with
        | zero =>
          simp only [List.getElem?_cons_zero, Option.some.injEq] at hget
          subst hget
          have : (⟨EnvironmentVariable.fromRawBytesWithoutADelimiter r, filePath, line⟩ : Warning) ∈
              ws ++ [⟨EnvironmentVariable.fromRawBytesWithoutADelimiter r, filePath, line⟩] :=
            List.mem_append_right _ (List.mem_singleton.mpr rfl)
          simpa using hwsmono _ this
        | succ i =>
          simp only [List.getElem?_cons_succ] at hget
          have := hwarn i r0 hget hb0
          have harith : line + 1 + i = line + (i + 1) := by omega
          rwa [harith] at this
      · intro i r0 hget hb0
        cases i with
        | zero =>
          simp only [List.getElem?_cons_zero, Option.some.injEq] at hget
          subst hget
          rw [hb0] at hb
          cases hb
        | succ i =>
          simp only [List.getElem?_cons_succ] at hget
          exact hins i r0 hget hb0
    | false =>
      obtain ⟨w', ws', hres, hbl, hmono, hchar, hwsmono, hwarn, hins⟩ :=
        ih (line + 1)
          { w with set := hsInsert (EnvironmentVariable.fromRawBytesWithoutADelimiter r) w.set }
          (ws ++ []) hnulrest
      refine ⟨w', ws', ?_, hbl, ?_, ?_, ?_, ?_, ?_⟩
      · simpa [processLines, hnul0, whiteAdd, hb] using hres
      · intro n hn
        exact hmono n ((mem_hsInsert _ _ _).mpr (Or.inr hn))
      · intro n hn
        rcases hchar n hn with h | ⟨r', hr', hn', hbl'⟩
        · rcases (mem_hsInsert _ _ _).mp h with rfl | h'
          · exact Or.inr ⟨r, List.mem_cons_self _ _, rfl, hb⟩
          · exact Or.inl h'
        · exact Or.inr ⟨r', List.mem_cons_of_mem _ hr', hn', hbl'⟩
      · intro wn hwn
        exact hwsmono wn (List.mem_append_left _ hwn)
      · intro i r0 hget hb0
        cases i with
        | zero =>
          simp only [List.getElem?_cons_zero, Option.some.injEq] at hget
          subst hget
          rw [hb0] at hb
          cases hb
        | succ i =>
          simp only [List.getElem?_cons_succ] at hget
          have := hwarn i r0 hget hb0
          have harith : line + 1 + i = line + (i + 1) := by omega
          rwa [harith] at this
      · intro i r0 hget hb0
        cases i with
        | zero =>
          simp only [List.getElem?_cons_zero, Option.some.injEq] at hget
          subst hget
          exact hmono _ ((mem_hsInsert _ _ _).mpr (Or.inl rfl))
        | succ i =>
          simp only [List.getElem?_cons_succ] at hget
          exact hins i r0 hget hb0

theorem processLines_settings_noTab (filePath : String) :
    ∀ (records : List Bytes) (i : Nat) (r : Bytes) (line : Nat) (s : SettingsList)
      (ws : List Warning),
      records[i]? = some r →
      (∀ j : Nat, j < i → ∀ rj : Bytes, records[j]? = some rj →
        memchr AsciiNul rj = none ∧ memchr TabByte rj ≠ none) →
      memchr AsciiNul r = none →
      memchr TabByte r = none →
      processLines "Settings" filePath (settingsAdd filePath) records line s ws =
        .error (.noTabDelimiter "Settings" filePath (line + i)) := by
  intro records
  induction records with
  | nil =>
    intro i r line s ws hget
    simp at hget
  | cons r0 rest ih =>
    intro i r line s ws hget hbefore hnul htab
    cases i with
    | zero =>
      simp only [List.getElem?_cons_zero, Option.some.injEq] at hget
      subst hget
      simp [processLines, hnul, settingsAdd, htab]
    | succ i =>
      have h0 := hbefore 0 (Nat.succ_pos i) r0 (by simp)
      simp only [List.getElem?_cons_succ] at hget
      cases htab0 : memchr TabByte r0 with
      | none => exact absurd htab0 h0.2
      | some index =>
        simp only [processLines, h0.1, settingsAdd, htab0, List.append_nil]
        have harith : line + (i + 1) = line + 1 + i := by omega
        rw [harith]
        exact ih i r (line + 1) _ _ hget
          (fun j hj rj hrj => hbefore (j + 1) (by omega) rj (by simpa using hrj)) hnul htab

theorem processLines_settings_preserve (filePath : String) :
    ∀ (records : List Bytes) (line : Nat) (s : SettingsList) (ws : List Warning)
      (s' : SettingsList) (ws' : List Warning),
      processLines "Settings" filePath (settingsAdd filePath) records line s ws = .ok (s', ws') →
      (∀ n : EnvironmentVariable, n.bytes.getLast? ≠ some AsciiNul →
        lookupA n s'.map = lookupA n s.map) ∧
      ((s.map.map Prod.fst).Nodup → (s'.map.map Prod.fst).Nodup) := by
  intro records
  induction records with
  | nil =>
    intro line s ws s' ws' h
    simp only [processLines, Except.ok.injEq, Prod.mk.injEq] at h
    rw [← h.1]
    exact ⟨fun n _ => rfl, id⟩
  | cons r0 rest ih =>
    intro line s ws s' ws' h
    cases hnul : memchr AsciiNul r0 with
    | some column => simp [processLines, hnul] at h
    | none =>
      cases htab : memchr TabByte r0 with
      | none => simp [processLines, hnul, settingsAdd, htab] at h
      | some index =>
        simp only [processLines, hnul, settingsAdd, htab, List.append_nil] at h
        obtain ⟨hpres, hnd⟩ := ih _ _ _ _ _ h
        constructor
        · intro n hn
          rw [hpres n hn]
          apply lookupA_insertReplace_ne
          intro he
          apply hn
          rw [← he]
          simp [EnvironmentVariable.fromRawBytesWithoutADelimiter,
            osStringFromRawBytesWithoutADelimiter]
        · intro hnd0
          exact hnd (keys_nodup_insertReplace _ _ _ hnd0)

theorem WhiteList.newAux_error :
    ∀ (blackList : BlackList) (defaults acc : List EnvironmentVariable),
      (∃ d ∈ defaults, blackList.isBlackListed d = true) →
      ∃ d', d' ∈ defaults ∧ blackList.isBlackListed d' = true ∧
        WhiteList.newAux blackList defaults acc = .error (.whiteListDefaultCollision d') := by
  intro bl defaults
  induction defaults with
  | nil =>
    rintro acc ⟨d, hd, -⟩
    cases hd
  | cons n rest ih =>
    rintro acc ⟨d, hd, hbl⟩
    cases hb : bl.isBlackListed n with
    | true =>
      exact ⟨n, List.mem_cons_self _ _, hb, by simp [WhiteList.newAux, hb]⟩
    | false =>
      have hdrest : d ∈ rest := by
        rcases List.mem_cons.mp hd with rfl | h
        · rw [hbl] at hb
          cases hb
        · exact h
      obtain ⟨d', hd', hbl', heq⟩ := ih (hsInsert n acc) ⟨d, hdrest, hbl⟩
      exact ⟨d', List.mem_cons_of_mem _ hd', hbl', by simp [WhiteList.newAux, hb, heq]⟩

theorem defaultSettings_lookup_USER (homeFolder programName : Bytes)
    (live : List (Bytes × Bytes)) (v : Bytes)
    (h : lookupA (strBytes "LOGNAME") live = some v) :
    lookupA (EnvironmentVariable.fromStr "USER")
      (defaultSettings true homeFolder programName live) = some v := by
  simp only [defaultSettings]
  rw [h]
  exact lookupA_insertReplace_self _ _ _

theorem defaultSettings_keys_nodup (isLinuxTarget : Bool) (homeFolder programName : Bytes)
    (live : List (Bytes × Bytes)) :
    ((defaultSettings isLinuxTarget homeFolder programName live).map Prod.fst).Nodup := by
  cases isLinuxTarget with
  | true =>
    simp only [defaultSettings]
    cases h : lookupA (strBytes "LOGNAME") live with
    | none =>
      simp only [h]
      repeat apply keys_nodup_insertReplace
      simp
    | some logname =>
      simp only [h]
      repeat apply keys_nodup_insertReplace
      simp
  | false =>
    simp only [defaultSettings]
    cases h : lookupA (strBytes "USER") live with
    | none =>
      simp only [h]
      repeat apply keys_nodup_insertReplace
      simp
    | some user =>
      simp only [h]
      repeat apply keys_nodup_insertReplace
      simp

theorem lookupA_removeVar_self (name : Bytes) (env : List (Bytes × Bytes)) :
    lookupA name (removeVar name env) = none := by
  induction env with
  | nil => rfl
  | cons p rest ih =>
    obtain ⟨k, v⟩ := p
    by_cases h : k = name
    · simpa [removeVar, List.filter_cons, h] using ih
    · simpa [removeVar, List.filter_cons, h, lookupA] using ih

theorem lookupA_removeVar_ne (k name : Bytes) (env : List (Bytes × Bytes)) (h : k ≠ name) :
    lookupA k (removeVar name env) = lookupA k env := by
  induction env with
  | nil => rfl
  | cons p rest ih =>
    obtain ⟨k0, v0⟩ := p
    by_cases h0 : k0 = name
    · subst h0
      have hne : ¬(k0 = k) := fun he => h (he ▸ rfl)
      simpa [removeVar, List.filter_cons, lookupA, hne] using ih
    · by_cases h1 : k0 = k
      · subst h1
        simp [removeVar, List.filter_cons, lookupA, h0]
      · simpa [removeVar, List.filter_cons, lookupA, h0, h1] using ih

/-! ### Claim theorems -/

/-- C8: a name built from a file record by `fromRawBytesWithoutADelimiter`
stores the record's bytes with a trailing ASCII NUL appended, while a default
name built via `From<&str>` stores the same visible bytes without a trailing
NUL; consequently the file-sourced name is never equal (as a set/map key) to
the default name with identical visible bytes. -/
theorem c8_file_name_nul_suffix_breaks_equality (b : Bytes) (s : String)
    (h : strBytes s = b) :
    (EnvironmentVariable.fromRawBytesWithoutADelimiter b).bytes = b ++ [AsciiNul] ∧
    (EnvironmentVariable.fromStr s).bytes = b ∧
    EnvironmentVariable.fromRawBytesWithoutADelimiter b ≠ EnvironmentVariable.fromStr s := by
  refine ⟨rfl, by rw [EnvironmentVariable.fromStr, h], ?_⟩
  intro he
  have hl := congrArg (fun x => x.bytes.length) he
  simp [EnvironmentVariable.fromRawBytesWithoutADelimiter,
    osStringFromRawBytesWithoutADelimiter, EnvironmentVariable.fromStr, h] at hl

/-- Witness for C8 at the concrete name `PATH`. -/
theorem c8_witness :
    (EnvironmentVariable.fromRawBytesWithoutADelimiter (strBytes "PATH")).bytes =
      strBytes "PATH" ++ [AsciiNul] ∧
    (EnvironmentVariable.fromStr "PATH").bytes = strBytes "PATH" ∧
    EnvironmentVariable.fromRawBytesWithoutADelimiter (strBytes "PATH") ≠
      EnvironmentVariable.fromStr "PATH" :=
  c8_file_name_nul_suffix_breaks_equality (strBytes "PATH") "PATH" rfl

/-- C9: `main` calls `homeFolderIgnoringValueOfHomeVariable` (which does
`remove_var("HOME")`) before the live-environment snapshot is taken, so no
entry named `HOME` ever appears in the environment that
`WhiteList::filterEnvironment` reads — independently of the black list. -/
theorem c9_home_removed_before_snapshot (inheritedEnvironment : List (Bytes × Bytes)) :
    lookupA (strBytes "HOME") (environmentAfterHomeRemoval inheritedEnvironment) = none :=
  lookupA_removeVar_self _ _

/-- White-list file content with the linefeed-separated records `PATH`, `TMPDIR`. -/
def c1FileContent : Bytes :=
  strBytes "PATH" ++ [LineFeed] ++ strBytes "TMPDIR"

/-- The white list built from the program's defaults and then loaded from
`c1FileContent`, as `main` would do. -/
def c1LoadedWhiteList : Except Fatal (WhiteList × List Warning) :=
  match WhiteList.new (BlackList.new defaultBlackList) defaultWhiteList with
  | .error e => .error e
  | .ok w => w.addToFromFile "white" c1FileContent

/-- C1 (failing input): loading the white-list file with records `PATH` and
`TMPDIR` inserts the NUL-suffixed names `PATH\x00` and `TMPDIR\x00`, which
under byte-exact equality differ from the pre-seeded defaults `PATH` and
`TMPDIR`; the resulting set is NOT `{PATH, TMPDIR}` plus the defaults. -/
theorem c1_roundTrip_inserts_nul_suffixed_names :
    c1LoadedWhiteList = .ok
      (⟨[EnvironmentVariable.fromStr "PATH", EnvironmentVariable.fromStr "TMPDIR",
         EnvironmentVariable.fromRawBytesWithoutADelimiter (strBytes "PATH"),
         EnvironmentVariable.fromRawBytesWithoutADelimiter (strBytes "TMPDIR")],
        BlackList.new defaultBlackList⟩, []) ∧
    EnvironmentVariable.fromRawBytesWithoutADelimiter (strBytes "PATH") ≠
      EnvironmentVariable.fromStr "PATH" ∧
    EnvironmentVariable.fromRawBytesWithoutADelimiter (strBytes "TMPDIR") ≠
      EnvironmentVariable.fromStr "TMPDIR" := by
  decide

/-- Settings file content consisting of the single record `TZ<TAB>Europe/London`. -/
def c2FileContent : Bytes :=
  strBytes "TZ" ++ [TabByte] ++ strBytes "Europe/London"

/-- The settings list seeded with the default `TZ=Etc/UTC` and then loaded from
`c2FileContent`. -/
def c2LoadedSettings : Except Fatal (SettingsList × List Warning) :=
  (SettingsList.new [(EnvironmentVariable.fromStr "TZ", strBytes "Etc/UTC")]).addToFromFile
    "settings" c2FileContent

/-- C2 (failing input): the file record `TZ<TAB>Europe/London` is stored under
the NUL-suffixed key `TZ\x00`, so the default entry `TZ=Etc/UTC` survives and
the final environment's entry named `TZ` still has value `Etc/UTC`, not
`Europe/London`. -/
theorem c2_settings_file_does_not_override_default :
    c2LoadedSettings = .ok
      (⟨[(EnvironmentVariable.fromStr "TZ", strBytes "Etc/UTC"),
         (EnvironmentVariable.fromRawBytesWithoutADelimiter (strBytes "TZ"),
          osStringFromRawBytesWithoutADelimiter (strBytes "Europe/London"))]⟩, []) ∧
    lookupA (strBytes "TZ")
      (SettingsList.addSettingsToEnvironment
        ⟨[(EnvironmentVariable.fromStr "TZ", strBytes "Etc/UTC"),
          (EnvironmentVariable.fromRawBytesWithoutADelimiter (strBytes "TZ"),
           osStringFromRawBytesWithoutADelimiter (strBytes "Europe/London"))]⟩ []) =
      some (strBytes "Etc/UTC") := by
  decide

/-- C7 (counterexample): a settings file whose content is a single linefeed
yields one EMPTY record at index 0, and the code aborts fatally on it with the
no-tab-delimiter error — the claim's empty-record exemption does not hold. -/
theorem c7_counterexample_empty_record_aborts :
    (SettingsList.new []).addToFromFile "settings" [LineFeed] =
      .error (.noTabDelimiter "Settings" "settings" 0) := by
  decide

/-- C7 (amended): when loading a settings file, EVERY record containing no tab
byte — empty records included — aborts the whole program fatally, reporting the
file path and the zero-based record index (given that the records before it are
well-formed, i.e. NUL-free and tab-containing). -/
theorem c7_amended_no_tab_always_aborts (s : SettingsList) (filePath : String)
    (content : Bytes) (i : Nat) (r : Bytes)
    (hget : (splitOnLineFeed content)[i]? = some r)
    (hbefore : ∀ j : Nat, j < i → ∀ rj : Bytes, (splitOnLineFeed content)[j]? = some rj →
      memchr AsciiNul rj = none ∧ memchr TabByte rj ≠ none)
    (hnul : memchr AsciiNul r = none)
    (htab : memchr TabByte r = none) :
    s.addToFromFile filePath content = .error (.noTabDelimiter "Settings" filePath i) := by
  have h := processLines_settings_noTab filePath (splitOnLineFeed content) i r 0 s []
    hget hbefore hnul htab
  simpa [SettingsList.addToFromFile, addFromLinesListedInFile] using h

/-- Witness for C7 (amended) on a file consisting of one empty record. -/
theorem c7_amended_witness :
    (SettingsList.new []).addToFromFile "path" [LineFeed] =
      .error (.noTabDelimiter "Settings" "path" 0) :=
  c7_amended_no_tab_always_aborts (SettingsList.new []) "path" [LineFeed] 0 []
    (by decide) (fun j hj => absurd hj (Nat.not_lt_zero _)) (by decide) (by decide)

/-- C3: every (name, value) entry of the settings list appears in the final
environment produced by `addSettingsToEnvironment`, with no black/white-list
awareness whatsoever (no list occurs in the statement). -/
theorem c3_settings_bypass_lists (s : SettingsList) (environment : List (Bytes × Bytes))
    (n : EnvironmentVariable) (v : Bytes)
    (hnd : (s.map.map Prod.fst).Nodup) (hmem : (n, v) ∈ s.map) :
    lookupA n.to_os_string (s.addSettingsToEnvironment environment) = some v :=
  lookupA_overlay s.map environment n v hnd hmem

/-- Witness for C3: a settings entry named `HOME` — black-listed, and filtered
out of the environment — still reaches the final output. -/
theorem c3_witness :
    lookupA (EnvironmentVariable.fromStr "HOME").to_os_string
      (SettingsList.addSettingsToEnvironment
        ⟨[(EnvironmentVariable.fromStr "HOME", strBytes "/root")]⟩
        (WhiteList.filterEnvironment
          ⟨[EnvironmentVariable.fromStr "PATH"],
            BlackList.new [EnvironmentVariable.fromStr "HOME"]⟩
          [(strBytes "HOME", strBytes "x")])) = some (strBytes "/root") :=
  c3_settings_bypass_lists
    ⟨[(EnvironmentVariable.fromStr "HOME", strBytes "/root")]⟩
    (WhiteList.filterEnvironment
      ⟨[EnvironmentVariable.fromStr "PATH"],
        BlackList.new [EnvironmentVariable.fromStr "HOME"]⟩
      [(strBytes "HOME", strBytes "x")])
    (EnvironmentVariable.fromStr "HOME") (strBytes "/root") (by decide) (by decide)

/-- C4: with a white list disjoint from its black list, the filtered
environment never contains an entry whose name is black-listed, and contains a
white-listed name (with its inherited value) iff the input environment does. -/
theorem c4_filter_semantics (w : WhiteList) (env : List (Bytes × Bytes))
    (hdisj : ∀ n ∈ w.set, n ∉ w.blackList.set) :
    (∀ (B : EnvironmentVariable) (v : Bytes), B ∈ w.blackList.set →
      (B.bytes, v) ∉ w.filterEnvironment env) ∧
    (∀ (W : EnvironmentVariable) (v : Bytes), W ∈ w.set →
      ((W.bytes, v) ∈ w.filterEnvironment env ↔ (W.bytes, v) ∈ env)) := by
  constructor
  · intro B v hB hmem
    simp only [WhiteList.filterEnvironment, List.mem_filter] at hmem
    obtain ⟨⟨-, hnb⟩, -⟩ := hmem
    simp only [BlackList.isNotBlackListed, BlackList.isBlackListed, Bool.not_eq_true',
      decide_eq_false_iff_not] at hnb
    exact hnb hB
  · intro W v hW
    constructor
    · intro hmem
      simp only [WhiteList.filterEnvironment, List.mem_filter] at hmem
      exact hmem.1.1
    · intro hmem
      simp only [WhiteList.filterEnvironment, List.mem_filter]
      refine ⟨⟨hmem, ?_⟩, ?_⟩
      · simp only [BlackList.isNotBlackListed, BlackList.isBlackListed, Bool.not_eq_true',
          decide_eq_false_iff_not]
        exact hdisj W hW
      · simp only [WhiteList.isWhiteListed, decide_eq_true_iff]
        exact hW

/-- Witness for C4: black list `{HOME}`, white list `{PATH}`, environment with
both `PATH` and `HOME`; `HOME` is filtered out, `PATH` passes through. -/
theorem c4_witness :
    (strBytes "HOME", strBytes "h") ∉
      WhiteList.filterEnvironment
        ⟨[EnvironmentVariable.fromStr "PATH"], BlackList.new [EnvironmentVariable.fromStr "HOME"]⟩
        [(strBytes "PATH", strBytes "p"), (strBytes "HOME", strBytes "h")] ∧
    ((strBytes "PATH", strBytes "p") ∈
      WhiteList.filterEnvironment
        ⟨[EnvironmentVariable.fromStr "PATH"], BlackList.new [EnvironmentVariable.fromStr "HOME"]⟩
        [(strBytes "PATH", strBytes "p"), (strBytes "HOME", strBytes "h")] ↔
      (strBytes "PATH", strBytes "p") ∈
        [(strBytes "PATH", strBytes "p"), (strBytes "HOME", strBytes "h")]) := by
  have h := c4_filter_semantics
    ⟨[EnvironmentVariable.fromStr "PATH"], BlackList.new [EnvironmentVariable.fromStr "HOME"]⟩
    [(strBytes "PATH", strBytes "p"), (strBytes "HOME", strBytes "h")] (by decide)
  exact ⟨h.1 (EnvironmentVariable.fromStr "HOME") (strBytes "h") (by decide),
    h.2 (EnvironmentVariable.fromStr "PATH") (strBytes "p") (by decide)⟩

/-- C5: if a white-list default is already black-listed, `WhiteList::new`
aborts the whole program with the fatal configuration error naming an offending
identifier, and the whole `main` pipeline fails the same way for EVERY
white-list (and settings) file — the file is never consulted. -/
theorem c5_default_collision_aborts_before_file (defBlack defWhite : List EnvironmentVariable)
    (d : EnvironmentVariable) (hd : d ∈ defWhite)
    (hbl : (BlackList.new defBlack).isBlackListed d = true) :
    ∃ d', d' ∈ defWhite ∧ (BlackList.new defBlack).isBlackListed d' = true ∧
      WhiteList.new (BlackList.new defBlack) defWhite =
        .error (.whiteListDefaultCollision d') ∧
      ∀ (isLinuxTarget : Bool) (inheritedEnvironment : List (Bytes × Bytes))
        (homeFolder programName : Bytes) (whiteFile settingsFile : Option (String × Bytes)),
        mainRun isLinuxTarget defBlack defWhite
          ⟨inheritedEnvironment, homeFolder, programName, none, whiteFile, settingsFile⟩ =
          .error (.whiteListDefaultCollision d') := by
  obtain ⟨d', hd', hbl', heq⟩ :=
    WhiteList.newAux_error (BlackList.new defBlack) defWhite [] ⟨d, hd, hbl⟩
  have heq' : WhiteList.new (BlackList.new defBlack) defWhite =
      .error (.whiteListDefaultCollision d') := heq
  refine ⟨d', hd', hbl', heq', ?_⟩
  intro isl env home prog wf sf
  simp only [mainRun, heq']

/-- Witness for C5: black and white defaults both `{HOME}`. -/
theorem c5_witness :
    ∃ d', d' ∈ [EnvironmentVariable.fromStr "HOME"] ∧
      (BlackList.new [EnvironmentVariable.fromStr "HOME"]).isBlackListed d' = true ∧
      WhiteList.new (BlackList.new [EnvironmentVariable.fromStr "HOME"])
          [EnvironmentVariable.fromStr "HOME"] =
        .error (.whiteListDefaultCollision d') ∧
      ∀ (isLinuxTarget : Bool) (inheritedEnvironment : List (Bytes × Bytes))
        (homeFolder programName : Bytes) (whiteFile settingsFile : Option (String × Bytes)),
        mainRun isLinuxTarget [EnvironmentVariable.fromStr "HOME"]
          [EnvironmentVariable.fromStr "HOME"]
          ⟨inheritedEnvironment, homeFolder, programName, none, whiteFile, settingsFile⟩ =
          .error (.whiteListDefaultCollision d') :=
  c5_default_collision_aborts_before_file [EnvironmentVariable.fromStr "HOME"]
    [EnvironmentVariable.fromStr "HOME"] (EnvironmentVariable.fromStr "HOME")
    (by decide) (by decide)

/-- C6: loading a white-list file never aborts (NUL-free records assumed): for
every record whose (NUL-suffixed) name is black-listed a warning carrying the
name, the file path and the zero-based record index is emitted and the name is
not inserted, while every non-black-listed record's name is inserted; and the
black-list and settings loaders never emit warnings — this is the only
warning-and-continue case. -/
theorem c6_white_collision_warns_and_continues (w : WhiteList) (filePath : String)
    (content : Bytes)
    (hnul : ∀ r ∈ splitOnLineFeed content, memchr AsciiNul r = none) :
    ∃ (w' : WhiteList) (warns : List Warning),
      w.addToFromFile filePath content = .ok (w', warns) ∧
      (∀ (i : Nat) (r : Bytes), (splitOnLineFeed content)[i]? = some r →
        (w.blackList.isBlackListed (EnvironmentVariable.fromRawBytesWithoutADelimiter r) = true →
          (⟨EnvironmentVariable.fromRawBytesWithoutADelimiter r, filePath, i⟩ : Warning) ∈ warns ∧
          (EnvironmentVariable.fromRawBytesWithoutADelimiter r ∈ w'.set ↔
            EnvironmentVariable.fromRawBytesWithoutADelimiter r ∈ w.set)) ∧
        (w.blackList.isBlackListed (EnvironmentVariable.fromRawBytesWithoutADelimiter r) = false →
          EnvironmentVariable.fromRawBytesWithoutADelimiter r ∈ w'.set)) ∧
      (∀ (b : BlackList) (p : String) (c : Bytes) (b' : BlackList) (bws : List Warning),
        b.addToFromFile p c = .ok (b', bws) → bws = []) ∧
      (∀ (s : SettingsList) (p : String) (c : Bytes) (s' : SettingsList) (sws : List Warning),
        s.addToFromFile p c = .ok (s', sws) → sws = []) := by
  obtain ⟨w', ws', hres, hbl, hmono, hchar, -, hwarn, hins⟩ :=
    processLines_white filePath (splitOnLineFeed content) 0 w [] hnul
  refine ⟨w', ws', by simpa [WhiteList.addToFromFile, addFromLinesListedInFile] using hres,
    ?_, ?_, ?_⟩
  · intro i r hget
    constructor
    · intro hb
      refine ⟨by simpa using hwarn i r hget hb, ?_⟩
      constructor
      · intro hmem
        rcases hchar _ hmem with h | ⟨r', -, heq', hbl'⟩
        · exact h
        · rw [hb] at hbl'
          cases hbl'
      · intro hmem
        exact hmono _ hmem
    · intro hb
      exact hins i r hget hb
  · intro b p c b' bws h
    exact processLines_black_warnings p (splitOnLineFeed c) 0 b [] (b', bws)
      (by simpa [BlackList.addToFromFile, addFromLinesListedInFile] using h)
  · intro s p c s' sws h
    exact processLines_settings_warnings p (splitOnLineFeed c) 0 s [] (s', sws)
      (by simpa [SettingsList.addToFromFile, addFromLinesListedInFile] using h)

/-- Black list used by the C6 witness: it contains the NUL-suffixed name that
the white-list loader constructs for the record `HOME`. -/
def c6BlackList : BlackList :=
  BlackList.new [EnvironmentVariable.fromRawBytesWithoutADelimiter (strBytes "HOME")]

/-- White-list file content for the C6 witness: records `HOME` (colliding with
`c6BlackList`) and `PATH` (not colliding). -/
def c6FileContent : Bytes :=
  strBytes "HOME" ++ [LineFeed] ++ strBytes "PATH"

/-- Witness for C6 on an empty white list over `c6BlackList` and `c6FileContent`. -/
theorem c6_witness :
    ∃ (w' : WhiteList) (warns : List Warning),
      WhiteList.addToFromFile ⟨[], c6BlackList⟩ "white" c6FileContent = .ok (w', warns) ∧
      (∀ (i : Nat) (r : Bytes), (splitOnLineFeed c6FileContent)[i]? = some r →
        (c6BlackList.isBlackListed (EnvironmentVariable.fromRawBytesWithoutADelimiter r) = true →
          (⟨EnvironmentVariable.fromRawBytesWithoutADelimiter r, "white", i⟩ : Warning) ∈ warns ∧
          (EnvironmentVariable.fromRawBytesWithoutADelimiter r ∈ w'.set ↔
            EnvironmentVariable.fromRawBytesWithoutADelimiter r ∈
              ([] : List EnvironmentVariable))) ∧
        (c6BlackList.isBlackListed (EnvironmentVariable.fromRawBytesWithoutADelimiter r) = false →
          EnvironmentVariable.fromRawBytesWithoutADelimiter r ∈ w'.set)) ∧
      (∀ (b : BlackList) (p : String) (c : Bytes) (b' : BlackList) (bws : List Warning),
        b.addToFromFile p c = .ok (b', bws) → bws = []) ∧
      (∀ (s : SettingsList) (p : String) (c : Bytes) (s' : SettingsList) (sws : List Warning),
        s.addToFromFile p c = .ok (s', sws) → sws = []) :=
  c6_white_collision_warns_and_continues ⟨[], c6BlackList⟩ "white" c6FileContent (by decide)

/-- C10: on Linux, an inherited `LOGNAME=v` makes the computed default settings
contain `USER=v` (read from the unfiltered live environment), `LOGNAME` is in
the default black list, and the value `v` reaches the final environment under
the name `USER` after any successfully parsed settings file (none can overwrite
the key `USER`, so the claim's "unless" proviso holds vacuously). -/
theorem c10_blacklisted_LOGNAME_reaches_USER (inheritedEnvironment : List (Bytes × Bytes))
    (homeFolder programName v : Bytes)
    (hlog : lookupA (strBytes "LOGNAME") inheritedEnvironment = some v) :
    EnvironmentVariable.fromStr "LOGNAME" ∈ (BlackList.new defaultBlackList).set ∧
    lookupA (EnvironmentVariable.fromStr "USER")
      (defaultSettings true homeFolder programName
        (environmentAfterHomeRemoval inheritedEnvironment)) = some v ∧
    ∀ (settingsFile : Option (String × Bytes)) (finalEnvironment : List (Bytes × Bytes))
      (warns : List Warning),
      mainRun true defaultBlackList defaultWhiteList
        ⟨inheritedEnvironment, homeFolder, programName, none, none, settingsFile⟩ =
        .ok (finalEnvironment, warns) →
      lookupA (strBytes "USER") finalEnvironment = some v := by
  have hlog' : lookupA (strBytes "LOGNAME")
      (environmentAfterHomeRemoval inheritedEnvironment) = some v := by
    rw [environmentAfterHomeRemoval, lookupA_removeVar_ne _ _ _ (by decide)]
    exact hlog
  have hUSER := defaultSettings_lookup_USER homeFolder programName _ v hlog'
  refine ⟨by decide, hUSER, ?_⟩
  intro sf finalEnv warns hrun
  have hw : WhiteList.new (BlackList.new defaultBlackList) defaultWhiteList =
      .ok ⟨[EnvironmentVariable.fromStr "PATH", EnvironmentVariable.fromStr "TMPDIR"],
        BlackList.new defaultBlackList⟩ := by decide
  simp only [mainRun, hw] at hrun
  cases sf with
  | none =>
    simp only [Except.ok.injEq, Prod.mk.injEq] at hrun
    obtain ⟨henv, -⟩ := hrun
    rw [← henv]
    exact lookupA_overlay _ _ _ _
      (defaultSettings_keys_nodup true homeFolder programName _)
      (lookupA_mem _ _ _ hUSER)
  | some pc =>
    cases hadd : (SettingsList.new (defaultSettings true homeFolder programName
        (environmentAfterHomeRemoval inheritedEnvironment))).addToFromFile pc.1 pc.2 with
    | error e =>
      simp only [hadd] at hrun
      cases hrun
    | ok pr =>
      obtain ⟨s', sws⟩ := pr
      simp only [hadd, Except.ok.injEq, Prod.mk.injEq] at hrun
      obtain ⟨henv, -⟩ := hrun
      rw [← henv]
      have hpres := processLines_settings_preserve pc.1 (splitOnLineFeed pc.2) 0 _ [] s' sws
        (by simpa [SettingsList.addToFromFile, addFromLinesListedInFile] using hadd)
      have hUSER' : lookupA (EnvironmentVariable.fromStr "USER") s'.map = some v := by
        rw [hpres.1 _ (by decide)]
        exact hUSER
      exact lookupA_overlay _ _ _ _
        (hpres.2 (defaultSettings_keys_nodup true homeFolder programName _))
        (lookupA_mem _ _ _ hUSER')

/-- Witness for C10: inherited environment `[LOGNAME=alice]`, no settings file. -/
theorem c10_witness :
    EnvironmentVariable.fromStr "LOGNAME" ∈ (BlackList.new defaultBlackList).set ∧
    lookupA (EnvironmentVariable.fromStr "USER")
      (defaultSettings true (strBytes "/root") (strBytes "ls")
        (environmentAfterHomeRemoval [(strBytes "LOGNAME", strBytes "alice")])) =
      some (strBytes "alice") ∧
    ∀ (settingsFile : Option (String × Bytes)) (finalEnvironment : List (Bytes × Bytes))
      (warns : List Warning),
      mainRun true defaultBlackList defaultWhiteList
        ⟨[(strBytes "LOGNAME", strBytes "alice")], strBytes "/root", strBytes "ls",
          none, none, settingsFile⟩ =
        .ok (finalEnvironment, warns) →
      lookupA (strBytes "USER") finalEnvironment = some (strBytes "alice") :=
  c10_blacklisted_LOGNAME_reaches_USER [(strBytes "LOGNAME", strBytes "alice")]
    (strBytes "/root") (strBytes "ls") (strBytes "alice") (by decide)

end EnvironmentSanity
